import Mathlib

/-!
# SimpleYUVPlayer: the NV12 decoder and the texture cache of main.cpp

A shallow embedding of `loadNV12toTexture`, `reloadTextures` and the parts of
`main` that touch the geometry, the selected index and the textures.

Conventions of the embedding:

* `int` is a 32-bit signed integer, carried as an `Int`; the result of an
  `int` operation is reduced with `wrapInt32` (two-complement wrap on overflow).
* `size_t` is a 64-bit unsigned integer, carried as a `Nat` reduced `% 2 ^ 64`.
* A pointer into the frame buffer is the buffer together with an offset from
  `buffer.data()`.
* SDL, the allocator and the file system are collaborators: they are parameters
  of the model.
* A call of the decoder that throws ends the program. The decoder records it
  (`Loaded.thrown`, `Call.terminate`); the driver is modelled for the runs in
  which every decoder call returns, and past a throw it carries `none` for the
  call.
* Every call of the decoder and of SDL is recorded in a log, so that statements
  about what is called, and with which arguments, can be made.
-/

namespace SimpleYUVPlayer

/-! ## Machine integers -/

/-- Value of a mathematical integer stored in a 32-bit signed `int`. -/
def wrapInt32 (x : Int) : Int := (x + 2147483648) % 4294967296 - 2147483648

/-- Conversion `(size_t)x` of an `int` to the 64-bit unsigned type. -/
def toSizeT (x : Int) : Nat := (x % 18446744073709551616).toNat

/-- Product `a * b` of two `int` values, as an `int`. -/
def intMul (a b : Int) : Int := wrapInt32 (a * b)

/-- Quotient `a / b` of two `int` values: C++ division truncates toward zero. -/
def intDiv (a b : Int) : Int := wrapInt32 (Int.tdiv a b)

/-- Whether a value is representable in a 32-bit signed `int`. -/
def isInt32 (x : Int) : Prop := -2147483648 ≤ x ∧ x ≤ 2147483647

instance (x : Int) : Decidable (isInt32 x) := by
  unfold isInt32; exact inferInstance

/-! ## Collaborators -/

/-- One byte of a frame file: `uint8_t`. -/
abbrev uint8_t := Fin 256

/-- The file system as the decoder sees it: a path either cannot be opened
(`none`) or opens on its content. -/
abbrev FileSystem := String → Option (List uint8_t)

/-- Arguments of `SDL_UpdateNVTexture(texture, NULL, Yplane, Ypitch, UVplane, UVpitch)`.
Both plane pointers point into `buffer`; each is kept as its offset from
`buffer.data()`. -/
structure NVPlanes where
  buffer : List uint8_t
  yStart : Int
  Ypitch : Int
  uvStart : Int
  UVpitch : Int
deriving DecidableEq, Repr

/-- A texture: the size it was created with and the planes uploaded into it. -/
structure SDL_Texture where
  width : Int
  height : Int
  planes : NVPlanes
deriving DecidableEq, Repr

/-- The libraries under the viewer. SDL: whether `SDL_CreateTexture` returns a
texture for a given size, and whether `SDL_UpdateNVTexture` returns 0 for given
arguments. C++ runtime: whether the constructor `std::vector<uint8_t> buffer(n)`
obtains its `n` bytes; when it does not, the constructor throws. -/
structure Host where
  createTexture : Int → Int → Bool
  updateNVTexture : Int → Int → NVPlanes → Bool
  vectorAlloc : Nat → Bool

/-- A call recorded in the log: of the decoder, of SDL, and of `std::terminate`,
which the runtime calls when an exception leaves `main` uncaught. -/
inductive Call where
  | load (path : String) (width height stride : Int)
  | create (width height : Int)
  | update (width height : Int) (planes : NVPlanes)
  | destroy (tex : SDL_Texture)
  | terminate
deriving DecidableEq, Repr

/-- Bytes readable from the pointer `buffer.data() + off` up to the end of the
buffer; `none` when the pointer does not point into the buffer (or one past
its end). -/
def planeBytes (buffer : List uint8_t) (off : Int) : Option (List uint8_t) :=
  if 0 ≤ off ∧ off ≤ (buffer.length : Int) then some (buffer.drop off.toNat) else none

/-! ## loadNV12toTexture (main.cpp 53-81) -/

/-- The value of `frameSize` (line 55). -/
def frameSize (height stride : Int) : Nat :=
  (toSizeT stride * toSizeT height % 18446744073709551616
    + toSizeT stride * toSizeT (intDiv height 2) % 18446744073709551616)
    % 18446744073709551616

/-- The frame buffer after lines 62-63: `frameSize` zero bytes, over which
`file.read` has copied the bytes of the file, as many as there are and at most
`frameSize`. -/
def readBuffer (content : List uint8_t) (n : Nat) : List uint8_t :=
  content.take n ++ List.replicate (n - (content.take n).length) 0

/-- What a call of `loadNV12toTexture` does: the texture it returns (`none` for
`nullptr`, and when it does not return), the calls it makes, and whether it
throws instead of returning. -/
structure Loaded where
  texture : Option SDL_Texture
  calls : List Call
  thrown : Bool
deriving DecidableEq, Repr

/-- The decoder `loadNV12toTexture`. The open check (lines 56-60) comes first;
then the buffer is allocated (line 62), and when the allocation fails the
constructor throws: nothing catches the exception, so the program ends in
`std::terminate` without a texture being created. -/
def loadNV12toTexture (host : Host) (fs : FileSystem) (path : String)
    (width height stride : Int) : Loaded :=
  let frameSize := frameSize height stride
  match fs path with
  | none => ⟨none, [Call.load path width height stride], false⟩
  | some content =>
    if host.vectorAlloc frameSize then
      let buffer := readBuffer content frameSize
      if host.createTexture width height then
        let planes : NVPlanes :=
          ⟨buffer, 0, stride, intMul stride height, stride⟩
        let tex : SDL_Texture := ⟨width, height, planes⟩
        if host.updateNVTexture width height planes then
          ⟨some tex, [Call.load path width height stride, Call.create width height,
            Call.update width height planes], false⟩
        else
          ⟨none, [Call.load path width height stride, Call.create width height,
            Call.update width height planes, Call.destroy tex], false⟩
      else
        ⟨none, [Call.load path width height stride, Call.create width height], false⟩
    else
      ⟨none, [Call.load path width height stride, Call.terminate], true⟩

/-! ## reloadTextures (main.cpp 84-98) -/

/-- The call `if (tex) SDL_DestroyTexture(tex)`. -/
def destroyCalls (tex : Option SDL_Texture) : List Call :=
  match tex with
  | some t => [Call.destroy t]
  | none => []

/-- The element `files[i]`. An index outside the vector is undefined behaviour
in the source; the model then reads the empty path. -/
def fileAt (files : List String) (i : Nat) : String := files.getD i ""

/-- The loop of lines 95-97, run for the indices of `is` in order:
`thumbTextures[i] = loadNV12toTexture(renderer, files[i], width, height, stride)`. -/
def loadThumbs (host : Host) (fs : FileSystem) (files : List String)
    (width height stride : Int) (is : List Nat)
    (acc : List (Option SDL_Texture) × List Call) : List (Option SDL_Texture) × List Call :=
  is.foldl (fun a i =>
    let r := loadNV12toTexture host fs (fileAt files i) width height stride
    (a.1.set i r.1, a.2 ++ r.2)) acc

/-- The function `reloadTextures`: the new `mainTexture`, the new
`thumbTextures` and the calls made. -/
def reloadTextures (host : Host) (fs : FileSystem) (files : List String)
    (width height stride : Int) (mainTexture : Option SDL_Texture)
    (thumbTextures : List (Option SDL_Texture)) (idx : Int) :
    Option SDL_Texture × List (Option SDL_Texture) × List Call :=
  let log1 := destroyCalls mainTexture
  let log2 := (thumbTextures.map destroyCalls).flatten
  let cleared : List (Option SDL_Texture) := thumbTextures.map (fun _ => none)
  let m := loadNV12toTexture host fs (fileAt files (toSizeT idx)) width height stride
  let r := loadThumbs host fs files width height stride (List.range files.length)
    (cleared, log1 ++ log2 ++ m.2)
  (m.1, r.1, r.2)

/-! ## The driver: state of main (main.cpp 101-400) -/

/-- The variables of `main` that the decoder and the cache depend on, and the
log of the calls made so far. -/
structure Driver where
  WIDTH : Int
  HEIGHT : Int
  STRIDE : Int
  idx : Int
  texture : Option SDL_Texture
  thumbTextures : List (Option SDL_Texture)
  quit : Bool
  log : List Call
deriving DecidableEq, Repr

/-- The expression `(idx + 1) % files.size()` stored into the `int` `idx`:
`idx + 1` is an `int`, converted to `size_t` for the remainder. -/
def nextIndex (idx : Int) (size : Nat) : Int :=
  wrapInt32 ((toSizeT (wrapInt32 (idx + 1)) % size : Nat) : Int)

/-- The expression `(idx - 1 + files.size()) % files.size()` stored into the
`int` `idx`: `idx - 1` is an `int`, converted to `size_t` for the sum, which
wraps modulo `2 ^ 64`. -/
def prevIndex (idx : Int) (size : Nat) : Int :=
  wrapInt32 (((toSizeT (wrapInt32 (idx - 1)) + size) % 18446744073709551616 % size : Nat) : Int)

/-- The statements `if (texture) SDL_DestroyTexture(texture);
texture = loadNV12toTexture(renderer, files[idx], WIDTH, HEIGHT, STRIDE);`
after `idx` has been assigned. -/
def loadMain (host : Host) (fs : FileSystem) (files : List String) (idx : Int)
    (d : Driver) : Driver :=
  let r := loadNV12toTexture host fs (fileAt files (toSizeT idx)) d.WIDTH d.HEIGHT d.STRIDE
  { d with idx := idx, texture := r.1, log := d.log ++ destroyCalls d.texture ++ r.2 }

/-- Key `SDLK_RIGHT` (lines 202-206). -/
def keyRight (host : Host) (fs : FileSystem) (files : List String) (d : Driver) : Driver :=
  loadMain host fs files (nextIndex d.idx files.length) d

/-- Key `SDLK_LEFT` (lines 207-211). -/
def keyLeft (host : Host) (fs : FileSystem) (files : List String) (d : Driver) : Driver :=
  loadMain host fs files (prevIndex d.idx files.length) d

/-- Button "Prev" (lines 238-242). -/
def buttonPrev (host : Host) (fs : FileSystem) (files : List String) (d : Driver) : Driver :=
  loadMain host fs files (prevIndex d.idx files.length) d

/-- Button "Next" (lines 244-248). -/
def buttonNext (host : Host) (fs : FileSystem) (files : List String) (d : Driver) : Driver :=
  loadMain host fs files (nextIndex d.idx files.length) d

/-- Double click on thumbnail `i` (lines 287-291): `idx = i`. -/
def thumbDoubleClick (host : Host) (fs : FileSystem) (files : List String) (i : Nat)
    (d : Driver) : Driver :=
  loadMain host fs files (wrapInt32 (i : Int)) d

/-- The key of an `SDL_KEYDOWN` event. -/
inductive Key where
  | escape
  | right
  | left
  | other
deriving DecidableEq, Repr

/-- An event returned by `SDL_PollEvent`. -/
inductive SDL_Event where
  | quit
  | keydown (sym : Key)
  | other
deriving DecidableEq, Repr

/-- Body of the loop `while (SDL_PollEvent(&e))` (lines 197-213). -/
def handleEvent (host : Host) (fs : FileSystem) (files : List String) (d : Driver)
    (e : SDL_Event) : Driver :=
  match e with
  | SDL_Event.quit => { d with quit := true }
  | SDL_Event.keydown Key.escape => { d with quit := true }
  | SDL_Event.keydown Key.right => keyRight host fs files d
  | SDL_Event.keydown Key.left => keyLeft host fs files d
  | _ => d

/-- Lines 230-235: the six `if` statements, in order, on the three globals. -/
def clampGeometry (d : Driver) : Driver :=
  let d1 := if d.WIDTH < 1 then { d with WIDTH := 1 } else d
  let d2 := if d1.WIDTH > 10000 then { d1 with WIDTH := 10000 } else d1
  let d3 := if d2.HEIGHT < 1 then { d2 with HEIGHT := 1 } else d2
  let d4 := if d3.HEIGHT > 10000 then { d3 with HEIGHT := 10000 } else d3
  let d5 := if d4.STRIDE < 1 then { d4 with STRIDE := 1 } else d4
  if d5.STRIDE > 10000 then { d5 with STRIDE := 10000 } else d5

/-- What the user does during one iteration of the main loop. -/
structure FrameInput where
  events : List SDL_Event
  inputWidth : Option Int
  inputHeight : Option Int
  inputStride : Option Int
  prevPressed : Bool
  nextPressed : Bool
  doubleClicked : Nat → Bool

/-- The three `ImGui::InputInt` fields (lines 226-228): a field the user edits
takes the value entered. -/
def inputInts (inp : FrameInput) (d : Driver) : Driver :=
  { d with WIDTH := inp.inputWidth.getD d.WIDTH, HEIGHT := inp.inputHeight.getD d.HEIGHT,
           STRIDE := inp.inputStride.getD d.STRIDE }

/-- Lines 252-254: the call of `reloadTextures` on the variables of `main`. -/
def reloadAll (host : Host) (fs : FileSystem) (files : List String) (d : Driver) : Driver :=
  let r := reloadTextures host fs files d.WIDTH d.HEIGHT d.STRIDE d.texture d.thumbTextures d.idx
  { d with texture := r.1, thumbTextures := r.2.1, log := d.log ++ r.2.2 }

/-- The thumbnail loop (lines 272-317): an empty slot is skipped, a drawn
thumbnail that is double-clicked becomes the selection. -/
def thumbnailBar (host : Host) (fs : FileSystem) (files : List String) (inp : FrameInput)
    (d : Driver) : Driver :=
  (List.range files.length).foldl (fun a i =>
    match a.thumbTextures.getD i none with
    | none => a
    | some _ => if inp.doubleClicked i then thumbDoubleClick host fs files i a else a) d

/-- The loop `while (SDL_PollEvent(&e))` (lines 196-213) over the pending events. -/
def pollEvents (host : Host) (fs : FileSystem) (files : List String) (events : List SDL_Event)
    (d : Driver) : Driver :=
  events.foldl (handleEvent host fs files) d

/-- The control panel (lines 226-248): the three input fields, the clamp, then
the buttons "Prev" and "Next". -/
def controlPanel (host : Host) (fs : FileSystem) (files : List String) (inp : FrameInput)
    (d : Driver) : Driver :=
  let d2 := clampGeometry (inputInts inp d)
  let d3 := if inp.prevPressed then buttonPrev host fs files d2 else d2
  if inp.nextPressed then buttonNext host fs files d3 else d3

/-- One iteration of `while (!quit)` (lines 188-388), without the drawing:
the events, the control panel, the reload when the geometry differs from the
one saved in `oldWidth`, `oldHeight`, `oldStride` (line 225), the thumbnails. -/
def frame (host : Host) (fs : FileSystem) (files : List String) (inp : FrameInput)
    (d : Driver) : Driver :=
  let d1 := pollEvents host fs files inp.events d
  let d4 := controlPanel host fs files inp d1
  let d5 := if d4.WIDTH ≠ d1.WIDTH ∨ d4.HEIGHT ≠ d1.HEIGHT ∨ d4.STRIDE ≠ d1.STRIDE
    then reloadAll host fs files d4 else d4
  thumbnailBar host fs files inp d5

/-- The main loop run over a list of iterations; it stops once `quit` is set. -/
def runFrames (host : Host) (fs : FileSystem) (files : List String) :
    List FrameInput → Driver → Driver
  | [], d => d
  | inp :: rest, d => if d.quit then d else runFrames host fs files rest (frame host fs files inp d)

/-! ## Start of main (main.cpp 101-180) -/

/-- The library function `std::stoi` in base 10: leading white space (the space
and the characters 9 to 13, as `isspace` has them) is skipped, an optional sign
and the longest run of digits are read, what follows is ignored; `none` stands
for the exception thrown when no digit is found or the value does not fit an
`int`. -/
def stoi (s : String) : Option Int :=
  let cs := s.toList.dropWhile (fun c => c = ' ' ∨ (9 ≤ c.toNat ∧ c.toNat ≤ 13))
  let neg := cs.head? = some '-'
  let body := if cs.head? = some '-' ∨ cs.head? = some '+' then cs.drop 1 else cs
  let ds := body.takeWhile (fun c => 48 ≤ c.toNat ∧ c.toNat ≤ 57)
  if ds = [] then none
  else
    let v : Int := ((ds.foldl (fun a c => 10 * a + (c.toNat - 48)) 0 : Nat) : Int)
    let r : Int := if neg then -v else v
    if isInt32 r then some r else none

/-- What `main` obtains from outside the program: the folder returned by the
folder dialog (`selectFolder`), and for a folder the paths collected and sorted
by lines 144-153. -/
structure Environment where
  selectFolder : String
  listFiles : String → List String

/-- How the start of `main` ends. -/
inductive Startup where
  | exit (code : Int)
  | thrown
  | running (files : List String) (d : Driver)
deriving DecidableEq, Repr

/-- Lines 174-180, for the geometry held by the globals: `idx = 0`, no texture,
`thumbTextures(files.size(), nullptr)`, then `reloadTextures`. -/
def initialDriver (host : Host) (fs : FileSystem) (files : List String)
    (width height stride : Int) : Driver :=
  reloadAll host fs files
    ⟨width, height, stride, 0, none, List.replicate files.length none, false, []⟩

/-- Lines 143-180 once the geometry and the folder are known. -/
def startViewer (host : Host) (fs : FileSystem) (env : Environment)
    (width height stride : Int) (folder : String) : Startup :=
  let files := env.listFiles folder
  if files = [] then Startup.exit 0
  else Startup.running files (initialDriver host fs files width height stride)

/-- Lines 101-180: `argv` holds `argv[0]`, ..., `argv[argc - 1]`. The globals
start as `WIDTH = 640`, `HEIGHT = 360`, `STRIDE = WIDTH`. -/
def main (host : Host) (fs : FileSystem) (env : Environment) (argv : List String) : Startup :=
  if argv.length = 2 ∧ argv.getD 1 "" = "-h" then Startup.exit 0
  else if argv.length ≥ 3 then
    match stoi (argv.getD 1 "") with
    | none => Startup.thrown
    | some w =>
      match stoi (argv.getD 2 "") with
      | none => Startup.thrown
      | some h =>
        let folder := if argv.length ≥ 5 then argv.getD 4 "" else "."
        if argv.length ≥ 4 then
          match stoi (argv.getD 3 "") with
          | none => Startup.thrown
          | some s => startViewer host fs env w h s folder
        else startViewer host fs env w h w folder
  else
    if env.selectFolder = "" then Startup.exit 0
    else startViewer host fs env 640 360 640 env.selectFolder

/-- The decoder calls of a log, each as its geometry `(width, height, stride)`. -/
def loadGeometries (log : List Call) : List (Int × Int × Int) :=
  log.filterMap (fun c =>
    match c with
    | Call.load _ w h s => some (w, h, s)
    | _ => none)

/-- A host on which every texture creation and every update succeeds, and on
which an allocation succeeds when it fits the user address space of an x86-64
process, 2^47 bytes. -/
def hostOk : Host :=
  ⟨fun _ _ => true, fun _ _ _ => true, fun n => decide (n ≤ 140737488355328)⟩

/-- The planes that `loadNV12toTexture` passes to `SDL_UpdateNVTexture` for a
file holding `content` (lines 73-76). -/
def loadedPlanes (content : List uint8_t) (height stride : Int) : NVPlanes :=
  ⟨readBuffer content (frameSize height stride), 0, stride, intMul stride height, stride⟩

/-- The cache is consistent with the file list, the selection and the current
geometry: there is one thumbnail slot per file and slot `i` holds what the
decoder returns for `files[i]` at the current geometry, and the main texture is
what the decoder returns for `files[idx]` at the current geometry. -/
def Consistent (host : Host) (fs : FileSystem) (files : List String) (d : Driver) : Prop :=
  d.thumbTextures = (List.range files.length).map (fun i =>
      (loadNV12toTexture host fs (fileAt files i) d.WIDTH d.HEIGHT d.STRIDE).1)
  ∧ d.texture
      = (loadNV12toTexture host fs (fileAt files (toSizeT d.idx)) d.WIDTH d.HEIGHT d.STRIDE).1

instance (host : Host) (fs : FileSystem) (files : List String) (d : Driver) :
    Decidable (Consistent host fs files d) := by
  unfold Consistent; exact inferInstance

/-- The selected index is an index of the file list, so that `files[idx]` is
an element of it. -/
def ValidIndex (files : List String) (d : Driver) : Prop :=
  0 ≤ d.idx ∧ d.idx < files.length

/-- A step from `d` to `e` that selects `newIdx` and touches nothing else: the
selected index becomes `newIdx`, the main texture becomes what the decoder
returns for `files[newIdx]` at the geometry of `d`, and the thumbnails, the
geometry and the quit flag are those of `d`. -/
def SelectsOnly (host : Host) (fs : FileSystem) (files : List String) (newIdx : Int)
    (d e : Driver) : Prop :=
  e.idx = newIdx
  ∧ e.texture
      = (loadNV12toTexture host fs (fileAt files (toSizeT newIdx)) d.WIDTH d.HEIGHT d.STRIDE).1
  ∧ e.thumbTextures = d.thumbTextures
  ∧ e.WIDTH = d.WIDTH ∧ e.HEIGHT = d.HEIGHT ∧ e.STRIDE = d.STRIDE ∧ e.quit = d.quit

/-- The thumbnails and the geometry of `e` are those of `d`. -/
def KeepsCache (d e : Driver) : Prop :=
  e.thumbTextures = d.thumbTextures
  ∧ e.WIDTH = d.WIDTH ∧ e.HEIGHT = d.HEIGHT ∧ e.STRIDE = d.STRIDE

/-- A file system with two frame files: `a.YUV420NV12` holds six bytes (a full
frame at height 2 and stride 2), `b.YUV420NV12` cannot be opened. -/
def fsExample : FileSystem := fun path =>
  if path = "a.YUV420NV12" then some [1, 2, 3, 4, 5, 6] else none

/-! ## Machine arithmetic: auxiliary facts -/

theorem wrapInt32_of_isInt32 {x : Int} (hx : isInt32 x) : wrapInt32 x = x := by
  unfold isInt32 at hx
  unfold wrapInt32
  omega

theorem toSizeT_cast (x : Int) : ((toSizeT x : Nat) : Int) = x % 18446744073709551616 := by
  unfold toSizeT
  exact Int.toNat_of_nonneg (Int.emod_nonneg _ (by norm_num))

theorem toSizeT_of_nonneg {x : Int} (h0 : 0 ≤ x) (h1 : x < 18446744073709551616) :
    toSizeT x = x.toNat := by
  unfold toSizeT
  rw [Int.emod_eq_of_lt h0 h1]

theorem tdiv_two (h : Int) :
    Int.tdiv h 2 = if 0 ≤ h then h / 2 else -((-h) / 2) := by
  split
  · next hh => exact Int.tdiv_eq_ediv hh (by norm_num)
  · next hh =>
    have h1 : Int.tdiv (-h) 2 = (-h) / 2 := Int.tdiv_eq_ediv (by omega) (by norm_num)
    have h2 : Int.tdiv (-h) 2 = -(Int.tdiv h 2) := Int.neg_tdiv h 2
    omega

theorem intDiv_two {h : Int} (hh : isInt32 h) : intDiv h 2 = Int.tdiv h 2 := by
  unfold intDiv
  apply wrapInt32_of_isInt32
  unfold isInt32 at *
  rw [tdiv_two]
  split <;> omega

theorem frameSize_cast (h s : Int) :
    ((frameSize h s : Nat) : Int) = (s * h + s * intDiv h 2) % 18446744073709551616 := by
  unfold frameSize
  push_cast [toSizeT_cast]
  simp [Int.add_emod, Int.mul_emod]

/-- For `int` arguments the 64-bit computation of `frameSize` does not wrap
whenever the mathematical value is not negative. -/
theorem frameSize_eq {h s : Int} (hh : isInt32 h) (hs : isInt32 s)
    (h0 : 0 ≤ s * h + s * Int.tdiv h 2) :
    ((frameSize h s : Nat) : Int) = s * h + s * Int.tdiv h 2 := by
  rw [frameSize_cast, intDiv_two hh]
  apply Int.emod_eq_of_lt h0
  have hd : -2147483648 ≤ Int.tdiv h 2 ∧ Int.tdiv h 2 ≤ 2147483647 := by
    unfold isInt32 at hh
    rw [tdiv_two]
    split <;> omega
  unfold isInt32 at hh hs
  nlinarith [hh.1, hh.2, hs.1, hs.2, hd.1, hd.2]


theorem clampGeometry_fields (d : Driver) :
    (clampGeometry d).WIDTH = (if d.WIDTH < 1 then 1 else if d.WIDTH > 10000 then 10000 else d.WIDTH)
    ∧ (clampGeometry d).HEIGHT
        = (if d.HEIGHT < 1 then 1 else if d.HEIGHT > 10000 then 10000 else d.HEIGHT)
    ∧ (clampGeometry d).STRIDE
        = (if d.STRIDE < 1 then 1 else if d.STRIDE > 10000 then 10000 else d.STRIDE)
    ∧ (clampGeometry d).idx = d.idx ∧ (clampGeometry d).texture = d.texture
    ∧ (clampGeometry d).thumbTextures = d.thumbTextures
    ∧ (clampGeometry d).quit = d.quit ∧ (clampGeometry d).log = d.log := by
  unfold clampGeometry
  by_cases h1 : d.WIDTH < 1 <;> by_cases h2 : d.WIDTH > 10000 <;>
  by_cases h3 : d.HEIGHT < 1 <;> by_cases h4 : d.HEIGHT > 10000 <;>
  by_cases h5 : d.STRIDE < 1 <;> by_cases h6 : d.STRIDE > 10000 <;>
  simp [h1, h2, h3, h4, h5, h6]

theorem nextIndex_eq {N : Nat} {idx : Int} (hN1 : 1 ≤ N) (hN : N ≤ 2147483647)
    (h0 : 0 ≤ idx) (h1 : idx < N) : nextIndex idx N = (idx + 1) % (N : Int) := by
  obtain ⟨k, rfl⟩ := Int.eq_ofNat_of_zero_le h0
  have hk : k < N := by exact_mod_cast h1
  have hw : wrapInt32 ((k : Int) + 1) = ((k + 1 : Nat) : Int) := by
    unfold wrapInt32; push_cast; omega
  have hlt : (k + 1) % N < N := Nat.mod_lt _ (by omega)
  unfold nextIndex
  rw [hw, toSizeT_of_nonneg (by positivity) (by push_cast; omega), Int.toNat_ofNat]
  rw [wrapInt32_of_isInt32 (by unfold isInt32; omega)]
  push_cast
  rfl

theorem prevIndex_eq {N : Nat} {idx : Int} (hN1 : 1 ≤ N) (hN : N ≤ 2147483647)
    (h0 : 0 ≤ idx) (h1 : idx < N) : prevIndex idx N = (idx - 1 + N) % (N : Int) := by
  obtain ⟨k, rfl⟩ := Int.eq_ofNat_of_zero_le h0
  have hk : k < N := by exact_mod_cast h1
  have hs : (toSizeT (wrapInt32 ((k : Int) - 1)) + N) % 18446744073709551616 = k + N - 1 := by
    have hw : wrapInt32 ((k : Int) - 1) = (k : Int) - 1 := by unfold wrapInt32; omega
    rw [hw]
    unfold toSizeT
    omega
  have hlt : (k + N - 1) % N < N := Nat.mod_lt _ (by omega)
  unfold prevIndex
  rw [hs, wrapInt32_of_isInt32 (by unfold isInt32; omega)]
  have hc : ((k + N - 1 : Nat) : Int) = (k : Int) - 1 + N := by omega
  rw [Int.ofNat_emod, hc]


theorem nextIndex_cases {N : Nat} {idx : Int} (hN1 : 1 ≤ N) (hN : N ≤ 2147483647)
    (h0 : 0 ≤ idx) (h1 : idx < N) :
    nextIndex idx N = if idx + 1 = N then 0 else idx + 1 := by
  rw [nextIndex_eq hN1 hN h0 h1]
  split
  · next h => rw [h]; exact Int.emod_self
  · next h => exact Int.emod_eq_of_lt (by omega) (by omega)

theorem prevIndex_cases {N : Nat} {idx : Int} (hN1 : 1 ≤ N) (hN : N ≤ 2147483647)
    (h0 : 0 ≤ idx) (h1 : idx < N) :
    prevIndex idx N = if idx = 0 then (N : Int) - 1 else idx - 1 := by
  rw [prevIndex_eq hN1 hN h0 h1]
  split
  · next h => rw [h]; exact Int.emod_eq_of_lt (by omega) (by omega)
  · next h =>
    rw [Int.add_emod_self]
    exact Int.emod_eq_of_lt (by omega) (by omega)

theorem nav_bounds {N : Nat} {idx : Int} (hN1 : 1 ≤ N) (hN : N ≤ 2147483647)
    (h0 : 0 ≤ idx) (h1 : idx < N) :
    (0 ≤ nextIndex idx N ∧ nextIndex idx N < N) ∧ (0 ≤ prevIndex idx N ∧ prevIndex idx N < N) := by
  rw [nextIndex_cases hN1 hN h0 h1, prevIndex_cases hN1 hN h0 h1]
  refine ⟨?_, ?_⟩ <;> split <;> omega

theorem readBuffer_length (content : List uint8_t) (n : Nat) :
    (readBuffer content n).length = n := by
  unfold readBuffer
  simp only [List.length_append, List.length_replicate, List.length_take]
  omega

/-! ## The decoder -/

theorem load_none {fs : FileSystem} {path : String} (host : Host) (width height stride : Int)
    (hf : fs path = none) :
    loadNV12toTexture host fs path width height stride
      = ⟨none, [Call.load path width height stride], false⟩ := by
  simp [loadNV12toTexture, hf]

theorem load_thrown {fs : FileSystem} {path : String} {content : List uint8_t} (host : Host)
    (width height stride : Int) (hf : fs path = some content)
    (ha : host.vectorAlloc (frameSize height stride) = false) :
    loadNV12toTexture host fs path width height stride
      = ⟨none, [Call.load path width height stride, Call.terminate], true⟩ := by
  simp [loadNV12toTexture, hf, ha]

theorem load_some {fs : FileSystem} {path : String} {content : List uint8_t} (host : Host)
    (width height stride : Int) (hf : fs path = some content)
    (ha : host.vectorAlloc (frameSize height stride) = true) :
    (loadNV12toTexture host fs path width height stride).1
      = (if host.createTexture width height
            ∧ host.updateNVTexture width height (loadedPlanes content height stride)
        then some ⟨width, height, loadedPlanes content height stride⟩ else none)
    ∧ (loadNV12toTexture host fs path width height stride).thrown = false := by
  unfold loadNV12toTexture loadedPlanes
  simp only [hf, ha, if_true]
  by_cases hc : host.createTexture width height = true
  · by_cases hu : host.updateNVTexture width height
        ⟨readBuffer content (frameSize height stride), 0, stride, intMul stride height, stride⟩
        = true
    · simp [hc, hu]
    · simp [hc, hu]
  · simp [hc]

/-- Every update the decoder makes passes the planes of lines 73-76, built on
the content of the file, for the texture size it was called with. -/
theorem load_update_mem {host : Host} {fs : FileSystem} {path : String}
    {width height stride w h : Int} {planes : NVPlanes}
    (hm : Call.update w h planes ∈ (loadNV12toTexture host fs path width height stride).2) :
    ∃ content, fs path = some content ∧ planes = loadedPlanes content height stride
      ∧ w = width ∧ h = height := by
  unfold loadNV12toTexture at hm
  cases hf : fs path with
  | none => simp [hf] at hm
  | some content =>
    refine ⟨content, rfl, ?_⟩
    simp only [hf] at hm
    by_cases ha : host.vectorAlloc (frameSize height stride) = true
    · by_cases hc : host.createTexture width height = true
      · by_cases hu : host.updateNVTexture width height
            ⟨readBuffer content (frameSize height stride), 0, stride, intMul stride height,
              stride⟩ = true
        · simp [ha, hc, hu] at hm
          obtain ⟨h1, h2, h3⟩ := hm
          exact ⟨h3, h1, h2⟩
        · simp [ha, hc, hu] at hm
          obtain ⟨h1, h2, h3⟩ := hm
          exact ⟨h3, h1, h2⟩
      · simp [ha, hc] at hm
    · simp [ha] at hm

/-- When the file opens, the buffer is allocated and the texture is created,
the decoder makes the update of lines 73-76. -/
theorem load_update_made {fs : FileSystem} {path : String} {content : List uint8_t}
    (host : Host) (width height stride : Int) (hf : fs path = some content)
    (ha : host.vectorAlloc (frameSize height stride) = true)
    (hc : host.createTexture width height = true) :
    Call.update width height (loadedPlanes content height stride)
      ∈ (loadNV12toTexture host fs path width height stride).2 := by
  unfold loadNV12toTexture loadedPlanes
  simp only [hf, ha, hc, if_true]
  split <;> simp

/-- A texture the decoder returns holds the planes of lines 73-76. -/
theorem load_texture {host : Host} {fs : FileSystem} {path : String}
    {width height stride : Int} {tex : SDL_Texture}
    (ht : (loadNV12toTexture host fs path width height stride).1 = some tex) :
    ∃ content, fs path = some content
      ∧ tex = ⟨width, height, loadedPlanes content height stride⟩ := by
  unfold loadNV12toTexture at ht
  cases hf : fs path with
  | none => simp [hf] at ht
  | some content =>
    refine ⟨content, rfl, ?_⟩
    simp only [hf] at ht
    by_cases ha : host.vectorAlloc (frameSize height stride) = true
    · by_cases hc : host.createTexture width height = true
      · by_cases hu : host.updateNVTexture width height
            ⟨readBuffer content (frameSize height stride), 0, stride, intMul stride height,
              stride⟩ = true
        · simp [ha, hc, hu] at ht
          exact ht.symm
        · simp [ha, hc, hu] at ht
      · simp [ha, hc] at ht
    · simp [ha] at ht

theorem readBuffer_short {content : List uint8_t} {n : Nat} (h : content.length ≤ n) :
    readBuffer content n = content ++ List.replicate (n - content.length) 0 := by
  unfold readBuffer
  rw [List.take_of_length_le h]

theorem readBuffer_exact {content : List uint8_t} {n : Nat} (h : content.length = n) :
    readBuffer content n = content := by
  rw [readBuffer_short (by omega), h]
  simp

theorem readBuffer_getElem? (content : List uint8_t) (n i : Nat) :
    (readBuffer content n)[i]? =
      if i < n then (if i < content.length then content[i]? else some 0) else none := by
  unfold readBuffer
  by_cases hin : i < n
  · by_cases hic : i < content.length
    · rw [List.getElem?_append_left (by simp; omega)]
      simp [hin, hic, List.getElem?_take]
    · rw [List.getElem?_append_right (by simp; omega)]
      simp only [hin, hic, if_true, if_false]
      rw [List.getElem?_replicate]
      simp only [List.length_take]
      rw [if_pos (by omega)]
  · simp only [hin, if_false]
    apply List.getElem?_eq_none
    simp only [List.length_append, List.length_take, List.length_replicate]
    omega


/-! ## The cache -/

theorem loadThumbs_range (host : Host) (fs : FileSystem) (files : List String)
    (width height stride : Int) (acc : List (Option SDL_Texture) × List Call) (n : Nat) :
    (loadThumbs host fs files width height stride (List.range n) acc).1.length = acc.1.length
    ∧ ∀ i : Nat, (loadThumbs host fs files width height stride (List.range n) acc).1[i]?
        = if i < n ∧ i < acc.1.length
          then some (loadNV12toTexture host fs (fileAt files i) width height stride).1
          else acc.1[i]? := by
  induction n with
  | zero => simp [loadThumbs]
  | succ n ih =>
    obtain ⟨ihl, ihg⟩ := ih
    have hstep : loadThumbs host fs files width height stride (List.range (n + 1)) acc
        = (((loadThumbs host fs files width height stride (List.range n) acc).1.set n
              (loadNV12toTexture host fs (fileAt files n) width height stride).1),
            (loadThumbs host fs files width height stride (List.range n) acc).2
              ++ (loadNV12toTexture host fs (fileAt files n) width height stride).2) := by
      unfold loadThumbs
      rw [List.range_succ, List.foldl_append]
      rfl
    rw [hstep]
    refine ⟨by simp [ihl], ?_⟩
    intro i
    simp only [List.getElem?_set, ihl, ihg]
    by_cases hin : n = i
    · subst hin
      by_cases hl : n < acc.1.length
      · simp [hl]
      · simp only [hl, and_false, if_false]
        rw [List.getElem?_eq_none (Nat.le_of_not_lt hl)]
        simp
    · have : (i < n + 1 ∧ i < acc.1.length) ↔ (i < n ∧ i < acc.1.length) := by omega
      simp only [hin, if_false, this]

theorem reloadTextures_thumbs (host : Host) (fs : FileSystem) (files : List String)
    (width height stride : Int) (mainTexture : Option SDL_Texture)
    (thumbTextures : List (Option SDL_Texture)) (idx : Int)
    (hlen : thumbTextures.length = files.length) :
    (reloadTextures host fs files width height stride mainTexture thumbTextures idx).2.1
      = (List.range files.length).map (fun i =>
          (loadNV12toTexture host fs (fileAt files i) width height stride).1) := by
  unfold reloadTextures
  apply List.ext_getElem?
  intro i
  simp only
  rw [(loadThumbs_range host fs files width height stride _ files.length).2 i]
  simp only [List.length_map, hlen, and_self, List.getElem?_map]
  by_cases hi : i < files.length
  · simp [hi, List.getElem?_range hi]
  · simp only [hi, if_false]
    rw [List.getElem?_eq_none (by omega), List.getElem?_eq_none (by simp; omega)]
    rfl

theorem reloadTextures_main (host : Host) (fs : FileSystem) (files : List String)
    (width height stride : Int) (mainTexture : Option SDL_Texture)
    (thumbTextures : List (Option SDL_Texture)) (idx : Int) :
    (reloadTextures host fs files width height stride mainTexture thumbTextures idx).1
      = (loadNV12toTexture host fs (fileAt files (toSizeT idx)) width height stride).1 := rfl

theorem countP_isSome_all {α : Type} (l : List (Option α))
    (h : ∀ i, i < l.length → ∃ t, l[i]? = some (some t)) :
    l.countP Option.isSome = l.length := by
  rw [List.countP_eq_length]
  intro a ha
  obtain ⟨i, hi, hget⟩ := List.getElem_of_mem ha
  obtain ⟨t, ht⟩ := h i hi
  rw [List.getElem?_eq_getElem hi, hget] at ht
  cases Option.some.inj ht
  rfl

theorem countP_isSome_one_none {α : Type} (l : List (Option α)) (j : Nat)
    (hj : j < l.length) (hnone : l[j]? = some none)
    (hsome : ∀ i, i < l.length → i ≠ j → ∃ t, l[i]? = some (some t)) :
    l.countP Option.isSome = l.length - 1 := by
  induction l generalizing j with
  | nil => simp at hj
  | cons a l ih =>
    cases j with
    | zero =>
      have ha : a = none := by simpa using hnone
      subst ha
      have hall : l.countP Option.isSome = l.length := by
        apply countP_isSome_all
        intro i hi
        have := hsome (i + 1) (by simp; omega) (by omega)
        simpa using this
      simp [List.countP_cons, hall]
    | succ j =>
      obtain ⟨t, ht⟩ := hsome 0 (by simp) (by omega)
      have ha : a = some t := by simpa using ht
      subst ha
      have hl : j < l.length := by simpa using hj
      have hrec := ih j hl (by simpa using hnone) (by
        intro i hi hij
        have := hsome (i + 1) (by simp; omega) (by omega)
        simpa using this)
      simp [List.countP_cons, hrec]
      omega


theorem foldl_invariant {α β : Type} (P : β → Prop) (f : β → α → β) (l : List α)
    (hf : ∀ b a, a ∈ l → P b → P (f b a)) (b : β) (hb : P b) : P (l.foldl f b) := by
  induction l generalizing b with
  | nil => exact hb
  | cons a l ih =>
    rw [List.foldl_cons]
    exact ih (fun b x hx hP => hf b x (List.mem_cons_of_mem _ hx) hP) _
      (hf b a (List.mem_cons_self _ _) hb)

theorem loadMain_selectsOnly (host : Host) (fs : FileSystem) (files : List String) (idx : Int)
    (d : Driver) : SelectsOnly host fs files idx d (loadMain host fs files idx d) :=
  ⟨rfl, rfl, rfl, rfl, rfl, rfl, rfl⟩

theorem loadMain_keepsCache (host : Host) (fs : FileSystem) (files : List String) (idx : Int)
    {c d : Driver} (h : KeepsCache c d) : KeepsCache c (loadMain host fs files idx d) :=
  ⟨h.1, h.2.1, h.2.2.1, h.2.2.2⟩

theorem loadMain_consistent (host : Host) (fs : FileSystem) (files : List String) (idx : Int)
    {d : Driver} (h : Consistent host fs files d) :
    Consistent host fs files (loadMain host fs files idx d) :=
  ⟨h.1, rfl⟩

theorem loadMain_validIndex (host : Host) (fs : FileSystem) (files : List String) {idx : Int}
    (d : Driver) (h0 : 0 ≤ idx) (h1 : idx < files.length) :
    ValidIndex files (loadMain host fs files idx d) :=
  ⟨h0, h1⟩

theorem handleEvent_keepsCache (host : Host) (fs : FileSystem) (files : List String)
    {c d : Driver} (e : SDL_Event) (h : KeepsCache c d) :
    KeepsCache c (handleEvent host fs files d e) := by
  cases e with
  | quit => exact h
  | other => exact h
  | keydown sym =>
    cases sym with
    | escape => exact h
    | other => exact h
    | right => exact loadMain_keepsCache host fs files _ h
    | left => exact loadMain_keepsCache host fs files _ h

theorem handleEvent_consistent (host : Host) (fs : FileSystem) (files : List String)
    {d : Driver} (e : SDL_Event) (h : Consistent host fs files d) :
    Consistent host fs files (handleEvent host fs files d e) := by
  cases e with
  | quit => exact h
  | other => exact h
  | keydown sym =>
    cases sym with
    | escape => exact h
    | other => exact h
    | right => exact loadMain_consistent host fs files _ h
    | left => exact loadMain_consistent host fs files _ h

theorem handleEvent_validIndex (host : Host) (fs : FileSystem) (files : List String)
    (hN1 : 1 ≤ files.length) (hN : files.length ≤ 2147483647) {d : Driver}
    (e : SDL_Event) (h : ValidIndex files d) :
    ValidIndex files (handleEvent host fs files d e) := by
  have hn := nav_bounds hN1 hN h.1 h.2
  cases e with
  | quit => exact h
  | other => exact h
  | keydown sym =>
    cases sym with
    | escape => exact h
    | other => exact h
    | right => exact loadMain_validIndex host fs files d hn.1.1 hn.1.2
    | left => exact loadMain_validIndex host fs files d hn.2.1 hn.2.2

theorem wrapInt32_index {files : List String} (hN : files.length ≤ 2147483647) {i : Nat}
    (hi : i < files.length) :
    0 ≤ wrapInt32 (i : Int) ∧ wrapInt32 (i : Int) < files.length := by
  rw [wrapInt32_of_isInt32 (by unfold isInt32; omega)]
  omega

/-- What holds of every state of the thumbnail loop holds after it, when each
double click keeps it. -/
theorem thumbnailBar_invariant (host : Host) (fs : FileSystem) (files : List String)
    (inp : FrameInput) (P : Driver → Prop)
    (hP : ∀ (b : Driver) (i : Nat), i < files.length → P b →
      P (thumbDoubleClick host fs files i b))
    {d : Driver} (h : P d) : P (thumbnailBar host fs files inp d) := by
  unfold thumbnailBar
  apply foldl_invariant P _ _ _ _ h
  intro b i hi hb
  have hi2 : i < files.length := List.mem_range.mp hi
  cases b.thumbTextures.getD i none with
  | none => exact hb
  | some t =>
    by_cases hc : inp.doubleClicked i = true
    · simp only [hc, if_true]
      exact hP b i hi2 hb
    · simp only [hc]
      exact hb

theorem thumbnailBar_keepsCache (host : Host) (fs : FileSystem) (files : List String)
    (inp : FrameInput) {c d : Driver} (h : KeepsCache c d) :
    KeepsCache c (thumbnailBar host fs files inp d) :=
  thumbnailBar_invariant host fs files inp (KeepsCache c)
    (fun _ _ _ hb => loadMain_keepsCache host fs files _ hb) h

theorem thumbnailBar_consistent (host : Host) (fs : FileSystem) (files : List String)
    (inp : FrameInput) {d : Driver} (h : Consistent host fs files d) :
    Consistent host fs files (thumbnailBar host fs files inp d) :=
  thumbnailBar_invariant host fs files inp (Consistent host fs files)
    (fun _ _ _ hb => loadMain_consistent host fs files _ hb) h

theorem thumbnailBar_validIndex (host : Host) (fs : FileSystem) (files : List String)
    (hN : files.length ≤ 2147483647) (inp : FrameInput) {d : Driver}
    (h : ValidIndex files d) : ValidIndex files (thumbnailBar host fs files inp d) :=
  thumbnailBar_invariant host fs files inp (ValidIndex files)
    (fun b _ hi _ =>
      loadMain_validIndex host fs files b (wrapInt32_index hN hi).1 (wrapInt32_index hN hi).2) h

theorem reloadAll_consistent (host : Host) (fs : FileSystem) (files : List String) {d : Driver}
    (hlen : d.thumbTextures.length = files.length) :
    Consistent host fs files (reloadAll host fs files d) :=
  ⟨reloadTextures_thumbs host fs files d.WIDTH d.HEIGHT d.STRIDE d.texture d.thumbTextures d.idx
      hlen, rfl⟩

theorem Consistent.length {host : Host} {fs : FileSystem} {files : List String} {d : Driver}
    (h : Consistent host fs files d) : d.thumbTextures.length = files.length := by
  rw [h.1]; simp

theorem pollEvents_keepsCache (host : Host) (fs : FileSystem) (files : List String)
    (events : List SDL_Event) {c d : Driver} (h : KeepsCache c d) :
    KeepsCache c (pollEvents host fs files events d) :=
  foldl_invariant (KeepsCache c) _ _
    (fun _ e _ hb => handleEvent_keepsCache host fs files e hb) _ h

theorem pollEvents_consistent (host : Host) (fs : FileSystem) (files : List String)
    (events : List SDL_Event) {d : Driver} (h : Consistent host fs files d) :
    Consistent host fs files (pollEvents host fs files events d) :=
  foldl_invariant (Consistent host fs files) _ _
    (fun _ e _ hb => handleEvent_consistent host fs files e hb) _ h

theorem pollEvents_validIndex (host : Host) (fs : FileSystem) (files : List String)
    (hN1 : 1 ≤ files.length) (hN : files.length ≤ 2147483647) (events : List SDL_Event)
    {d : Driver} (h : ValidIndex files d) :
    ValidIndex files (pollEvents host fs files events d) :=
  foldl_invariant (ValidIndex files) _ _
    (fun _ e _ hb => handleEvent_validIndex host fs files hN1 hN e hb) _ h

/-- The control panel keeps the thumbnails; its geometry is the clamped geometry
of the input fields. -/
theorem controlPanel_keepsCache (host : Host) (fs : FileSystem) (files : List String)
    (inp : FrameInput) (d : Driver) :
    KeepsCache (clampGeometry (inputInts inp d)) (controlPanel host fs files inp d) := by
  have k2 : KeepsCache (clampGeometry (inputInts inp d)) (clampGeometry (inputInts inp d)) :=
    ⟨rfl, rfl, rfl, rfl⟩
  have k3 : KeepsCache (clampGeometry (inputInts inp d))
      (if inp.prevPressed then buttonPrev host fs files (clampGeometry (inputInts inp d))
        else clampGeometry (inputInts inp d)) := by
    cases inp.prevPressed with
    | false => exact k2
    | true => exact loadMain_keepsCache host fs files _ k2
  unfold controlPanel
  cases inp.nextPressed with
  | false => exact k3
  | true => exact loadMain_keepsCache host fs files _ k3

theorem controlPanel_thumbTextures (host : Host) (fs : FileSystem) (files : List String)
    (inp : FrameInput) (d : Driver) :
    (controlPanel host fs files inp d).thumbTextures = d.thumbTextures := by
  rw [(controlPanel_keepsCache host fs files inp d).1]
  exact (clampGeometry_fields (inputInts inp d)).2.2.2.2.2.1

theorem controlPanel_validIndex (host : Host) (fs : FileSystem) (files : List String)
    (hN1 : 1 ≤ files.length) (hN : files.length ≤ 2147483647) (inp : FrameInput)
    {d : Driver} (h : ValidIndex files d) :
    ValidIndex files (controlPanel host fs files inp d) := by
  have hi : (clampGeometry (inputInts inp d)).idx = d.idx :=
    (clampGeometry_fields (inputInts inp d)).2.2.2.1
  have v2 : ValidIndex files (clampGeometry (inputInts inp d)) := by
    unfold ValidIndex
    rw [hi]
    exact h
  have v3 : ValidIndex files
      (if inp.prevPressed then buttonPrev host fs files (clampGeometry (inputInts inp d))
        else clampGeometry (inputInts inp d)) := by
    cases inp.prevPressed with
    | false => exact v2
    | true =>
      have hn := nav_bounds hN1 hN v2.1 v2.2
      exact loadMain_validIndex host fs files _ hn.2.1 hn.2.2
  unfold controlPanel
  cases inp.nextPressed with
  | false => exact v3
  | true =>
    have hn := nav_bounds hN1 hN v3.1 v3.2
    exact loadMain_validIndex host fs files _ hn.1.1 hn.1.2

theorem controlPanel_consistent (host : Host) (fs : FileSystem) (files : List String)
    (inp : FrameInput) {d : Driver} (h : Consistent host fs files d)
    (hw : (controlPanel host fs files inp d).WIDTH = d.WIDTH)
    (hh : (controlPanel host fs files inp d).HEIGHT = d.HEIGHT)
    (hs : (controlPanel host fs files inp d).STRIDE = d.STRIDE) :
    Consistent host fs files (controlPanel host fs files inp d) := by
  have k := controlPanel_keepsCache host fs files inp d
  obtain ⟨-, -, -, hi, ht, hth, -, -⟩ := clampGeometry_fields (inputInts inp d)
  have c2 : Consistent host fs files (clampGeometry (inputInts inp d)) := by
    unfold Consistent
    rw [hth, ht, hi, ← k.2.1, ← k.2.2.1, ← k.2.2.2, hw, hh, hs]
    exact h
  have c3 : Consistent host fs files
      (if inp.prevPressed then buttonPrev host fs files (clampGeometry (inputInts inp d))
        else clampGeometry (inputInts inp d)) := by
    cases inp.prevPressed with
    | false => exact c2
    | true => exact loadMain_consistent host fs files _ c2
  unfold controlPanel
  cases inp.nextPressed with
  | false => exact c3
  | true => exact loadMain_consistent host fs files _ c3

theorem frame_consistent (host : Host) (fs : FileSystem) (files : List String)
    (inp : FrameInput) {d : Driver} (h : Consistent host fs files d) :
    Consistent host fs files (frame host fs files inp d) := by
  have c1 := pollEvents_consistent host fs files inp.events h
  unfold frame
  apply thumbnailBar_consistent host fs files
  split
  · apply reloadAll_consistent host fs files
    rw [controlPanel_thumbTextures]
    exact c1.length
  · next hc =>
    have hc2 : (controlPanel host fs files inp (pollEvents host fs files inp.events d)).WIDTH
          = (pollEvents host fs files inp.events d).WIDTH
        ∧ (controlPanel host fs files inp (pollEvents host fs files inp.events d)).HEIGHT
          = (pollEvents host fs files inp.events d).HEIGHT
        ∧ (controlPanel host fs files inp (pollEvents host fs files inp.events d)).STRIDE
          = (pollEvents host fs files inp.events d).STRIDE := by
      refine ⟨?_, ?_, ?_⟩ <;> by_contra hne <;> exact hc (by simp [hne])
    exact controlPanel_consistent host fs files inp c1 hc2.1 hc2.2.1 hc2.2.2

theorem frame_validIndex (host : Host) (fs : FileSystem) (files : List String)
    (hN1 : 1 ≤ files.length) (hN : files.length ≤ 2147483647) (inp : FrameInput)
    {d : Driver} (h : ValidIndex files d) :
    ValidIndex files (frame host fs files inp d) := by
  have v1 := pollEvents_validIndex host fs files hN1 hN inp.events h
  have v4 := controlPanel_validIndex host fs files hN1 hN inp v1
  unfold frame
  apply thumbnailBar_validIndex host fs files hN
  split
  · exact v4
  · exact v4

theorem frame_geometry_change (host : Host) (fs : FileSystem) (files : List String)
    (inp : FrameInput) {d : Driver} (hlen : d.thumbTextures.length = files.length)
    (hG : ((frame host fs files inp d).WIDTH, (frame host fs files inp d).HEIGHT,
        (frame host fs files inp d).STRIDE) ≠ (d.WIDTH, d.HEIGHT, d.STRIDE)) :
    Consistent host fs files (frame host fs files inp d) := by
  have k1 : KeepsCache d (pollEvents host fs files inp.events d) :=
    pollEvents_keepsCache host fs files inp.events ⟨rfl, rfl, rfl, rfl⟩
  by_cases hc : (controlPanel host fs files inp (pollEvents host fs files inp.events d)).WIDTH
        ≠ (pollEvents host fs files inp.events d).WIDTH
      ∨ (controlPanel host fs files inp (pollEvents host fs files inp.events d)).HEIGHT
        ≠ (pollEvents host fs files inp.events d).HEIGHT
      ∨ (controlPanel host fs files inp (pollEvents host fs files inp.events d)).STRIDE
        ≠ (pollEvents host fs files inp.events d).STRIDE
  · unfold frame
    apply thumbnailBar_consistent host fs files
    rw [if_pos hc]
    apply reloadAll_consistent host fs files
    rw [controlPanel_thumbTextures, k1.1]
    exact hlen
  · exfalso
    apply hG
    have hfr : frame host fs files inp d = thumbnailBar host fs files inp
        (controlPanel host fs files inp (pollEvents host fs files inp.events d)) := by
      unfold frame
      simp only
      rw [if_neg hc]
    have k5 := thumbnailBar_keepsCache host fs files inp
      (show KeepsCache (controlPanel host fs files inp (pollEvents host fs files inp.events d))
        (controlPanel host fs files inp (pollEvents host fs files inp.events d)) from
        ⟨rfl, rfl, rfl, rfl⟩)
    have hc2 : (controlPanel host fs files inp (pollEvents host fs files inp.events d)).WIDTH
          = (pollEvents host fs files inp.events d).WIDTH
        ∧ (controlPanel host fs files inp (pollEvents host fs files inp.events d)).HEIGHT
          = (pollEvents host fs files inp.events d).HEIGHT
        ∧ (controlPanel host fs files inp (pollEvents host fs files inp.events d)).STRIDE
          = (pollEvents host fs files inp.events d).STRIDE := by
      refine ⟨?_, ?_, ?_⟩ <;> by_contra hne <;> exact hc (by simp [hne])
    rw [hfr, k5.2.1, k5.2.2.1, k5.2.2.2, hc2.1, hc2.2.1, hc2.2.2, k1.2.1, k1.2.2.1, k1.2.2.2]

theorem runFrames_consistent (host : Host) (fs : FileSystem) (files : List String)
    (inps : List FrameInput) {d : Driver} (h : Consistent host fs files d) :
    Consistent host fs files (runFrames host fs files inps d) := by
  induction inps generalizing d with
  | nil => exact h
  | cons inp rest ih =>
    unfold runFrames
    split
    · exact h
    · exact ih (frame_consistent host fs files inp h)

theorem runFrames_validIndex (host : Host) (fs : FileSystem) (files : List String)
    (hN1 : 1 ≤ files.length) (hN : files.length ≤ 2147483647) (inps : List FrameInput)
    {d : Driver} (h : ValidIndex files d) :
    ValidIndex files (runFrames host fs files inps d) := by
  induction inps generalizing d with
  | nil => exact h
  | cons inp rest ih =>
    unfold runFrames
    split
    · exact h
    · exact ih (frame_validIndex host fs files hN1 hN inp h)

theorem initialDriver_consistent (host : Host) (fs : FileSystem) (files : List String)
    (width height stride : Int) :
    Consistent host fs files (initialDriver host fs files width height stride) := by
  unfold initialDriver
  apply reloadAll_consistent
  simp

theorem initialDriver_validIndex (host : Host) (fs : FileSystem) (files : List String)
    (hN1 : 1 ≤ files.length) (width height stride : Int) :
    ValidIndex files (initialDriver host fs files width height stride) := by
  refine ⟨le_refl _, ?_⟩
  show (0 : Int) < files.length
  omega

theorem countP_isNone_eq {α : Type} (l : List (Option α)) :
    l.countP Option.isNone = l.length - l.countP Option.isSome := by
  have h := List.length_eq_countP_add_countP Option.isSome l
  have e : List.countP (fun a : Option α => decide ¬Option.isSome a = true) l
      = List.countP Option.isNone l := by
    congr
    funext a
    cases a <;> simp
  omega

theorem main_running {host : Host} {fs : FileSystem} {env : Environment} {argv : List String}
    {files : List String} {d : Driver}
    (h : main host fs env argv = Startup.running files d) :
    ∃ width height stride, d = initialDriver host fs files width height stride := by
  have hstart : ∀ w h s folder, startViewer host fs env w h s folder = Startup.running files d →
      d = initialDriver host fs files w h s := by
    intro w h s folder hv
    unfold startViewer at hv
    simp only at hv
    split at hv
    · cases hv
    · injection hv with h1 h2
      rw [← h2, h1]
  unfold main at h
  split at h
  · cases h
  · split at h
    · split at h
      · cases h
      · split at h
        · cases h
        · simp only at h
          split at h
          · split at h
            · cases h
            · exact ⟨_, _, _, hstart _ _ _ _ h⟩
          · exact ⟨_, _, _, hstart _ _ _ _ h⟩
    · split at h
      · cases h
      · exact ⟨_, _, _, hstart _ _ _ _ h⟩


/-! ## The claims -/

/-- C8. The clamp of lines 230-235 saturates and never rejects: each of WIDTH,
HEIGHT and STRIDE ends in the range 1..10000, keeps its value when that value is
already in the range, becomes 1 when it is below 1 and 10000 when it is above
10000; clamping twice is the same as clamping once; the result for one field does
not depend on the other two fields, and nothing but the three fields changes. -/
theorem clamp_saturates (d : Driver) :
    ((clampGeometry d).WIDTH
        = (if d.WIDTH < 1 then 1 else if d.WIDTH > 10000 then 10000 else d.WIDTH)
      ∧ (clampGeometry d).HEIGHT
        = (if d.HEIGHT < 1 then 1 else if d.HEIGHT > 10000 then 10000 else d.HEIGHT)
      ∧ (clampGeometry d).STRIDE
        = (if d.STRIDE < 1 then 1 else if d.STRIDE > 10000 then 10000 else d.STRIDE))
    ∧ (1 ≤ (clampGeometry d).WIDTH ∧ (clampGeometry d).WIDTH ≤ 10000
      ∧ 1 ≤ (clampGeometry d).HEIGHT ∧ (clampGeometry d).HEIGHT ≤ 10000
      ∧ 1 ≤ (clampGeometry d).STRIDE ∧ (clampGeometry d).STRIDE ≤ 10000)
    ∧ clampGeometry (clampGeometry d) = clampGeometry d
    ∧ (∀ w h s : Int,
        (clampGeometry { d with HEIGHT := h, STRIDE := s }).WIDTH = (clampGeometry d).WIDTH
        ∧ (clampGeometry { d with WIDTH := w, STRIDE := s }).HEIGHT = (clampGeometry d).HEIGHT
        ∧ (clampGeometry { d with WIDTH := w, HEIGHT := h }).STRIDE = (clampGeometry d).STRIDE)
    ∧ ((clampGeometry d).idx = d.idx ∧ (clampGeometry d).texture = d.texture
      ∧ (clampGeometry d).thumbTextures = d.thumbTextures
      ∧ (clampGeometry d).quit = d.quit ∧ (clampGeometry d).log = d.log) := by
  obtain ⟨hw, hh, hs, hrest⟩ := clampGeometry_fields d
  refine ⟨⟨hw, hh, hs⟩, ?_, ?_, ?_, hrest⟩
  · rw [hw, hh, hs]
    refine ⟨?_, ?_, ?_, ?_, ?_, ?_⟩ <;> split <;> try split
    all_goals omega
  · obtain ⟨hw2, hh2, hs2, hi2, ht2, hth2, hq2, hl2⟩ := clampGeometry_fields (clampGeometry d)
    have e1 : (clampGeometry (clampGeometry d)).WIDTH = (clampGeometry d).WIDTH := by
      rw [hw2, hw]; split <;> try split
      all_goals (split at * <;> try split at *) <;> omega
    have e2 : (clampGeometry (clampGeometry d)).HEIGHT = (clampGeometry d).HEIGHT := by
      rw [hh2, hh]; split <;> try split
      all_goals (split at * <;> try split at *) <;> omega
    have e3 : (clampGeometry (clampGeometry d)).STRIDE = (clampGeometry d).STRIDE := by
      rw [hs2, hs]; split <;> try split
      all_goals (split at * <;> try split at *) <;> omega
    cases hc : clampGeometry (clampGeometry d)
    cases hd : clampGeometry d
    simp_all
  · intro w h s
    refine ⟨?_, ?_, ?_⟩
    · rw [(clampGeometry_fields _).1, hw]
    · rw [(clampGeometry_fields _).2.1, hh]
    · rw [(clampGeometry_fields _).2.2.1, hs]

/-- C6. Next and previous navigation is a closed cycle: for a file count N
with 1 ≤ N ≤ 2^31 - 1 and an index idx with 0 ≤ idx < N, the expressions
(idx + 1) % files.size() and (idx - 1 + files.size()) % files.size(), computed
with the conversions of C++ between int and the 64-bit unsigned type, are
(idx + 1) mod N and (idx - 1 + N) mod N; both lie in 0..N-1, next of N - 1 is 0,
previous of 0 is N - 1, and each of the two undoes the other. -/
theorem navigation_cycle (N : Nat) (idx : Int) (hN1 : 1 ≤ N) (hN : N ≤ 2147483647)
    (h0 : 0 ≤ idx) (h1 : idx < N) :
    nextIndex idx N = (idx + 1) % (N : Int)
    ∧ prevIndex idx N = (idx - 1 + N) % (N : Int)
    ∧ (0 ≤ nextIndex idx N ∧ nextIndex idx N < N)
    ∧ (0 ≤ prevIndex idx N ∧ prevIndex idx N < N)
    ∧ nextIndex ((N : Int) - 1) N = 0
    ∧ prevIndex 0 N = (N : Int) - 1
    ∧ prevIndex (nextIndex idx N) N = idx
    ∧ nextIndex (prevIndex idx N) N = idx := by
  have hn := nextIndex_cases hN1 hN h0 h1
  have hp := prevIndex_cases hN1 hN h0 h1
  have hnb : 0 ≤ nextIndex idx N ∧ nextIndex idx N < N := by
    rw [hn]; split <;> omega
  have hpb : 0 ≤ prevIndex idx N ∧ prevIndex idx N < N := by
    rw [hp]; split <;> omega
  refine ⟨nextIndex_eq hN1 hN h0 h1, prevIndex_eq hN1 hN h0 h1, hnb, hpb, ?_, ?_, ?_, ?_⟩
  · rw [nextIndex_cases hN1 hN (by omega) (by omega)]; simp
  · rw [prevIndex_cases hN1 hN (by omega) (by omega)]; simp
  · rw [prevIndex_cases hN1 hN hnb.1 hnb.2, hn]
    split <;> split <;> omega
  · rw [nextIndex_cases hN1 hN hpb.1 hpb.2, hp]
    split <;> split <;> omega

/-- Witness of C6 at five files and the last index. -/
theorem navigation_cycle_witness :
    nextIndex 4 5 = 0 ∧ prevIndex 0 5 = 4 ∧ prevIndex (nextIndex 4 5) 5 = 4 := by
  have h := navigation_cycle 5 4 (by decide) (by decide) (by decide) (by decide)
  exact ⟨by simpa using h.1, by simpa using h.2.2.2.2.2.1, h.2.2.2.2.2.2.1⟩

/-- C10. For stride and height in 1..10000 the chroma start offset, computed as
the int product stride * height, does not overflow, equals the luma size
(size_t)stride * (size_t)height of the frame size computation, is at most the
buffer length stride*height + stride*(height/2), and leaves exactly
stride*(height/2) bytes of buffer after it (none when height is 1). This is the
pointer the decoder passes: whenever the file opens, the buffer is allocated and
the texture is created, loadNV12toTexture makes an update; every update it makes,
and every texture it returns, has a buffer of stride*height + stride*(height/2)
bytes and the chroma pointer at offset stride*height of it, inside the buffer,
with stride*(height/2) bytes after it. -/
theorem chroma_offset_in_buffer (stride height : Int)
    (hs1 : 1 ≤ stride) (hs2 : stride ≤ 10000) (hh1 : 1 ≤ height) (hh2 : height ≤ 10000) :
    intMul stride height = stride * height
    ∧ intMul stride height = ((toSizeT stride * toSizeT height : Nat) : Int)
    ∧ ((frameSize height stride : Nat) : Int) = stride * height + stride * (height / 2)
    ∧ intMul stride height ≤ ((frameSize height stride : Nat) : Int)
    ∧ ((frameSize height stride : Nat) : Int) - intMul stride height = stride * (height / 2)
    ∧ (height = 1 → ((frameSize height stride : Nat) : Int) - intMul stride height = 0)
    ∧ (∀ content : List uint8_t,
        ∃ chroma, planeBytes (readBuffer content (frameSize height stride))
            (intMul stride height) = some chroma
          ∧ ((chroma.length : Nat) : Int) = stride * (height / 2))
    ∧ (∀ (host : Host) (fs : FileSystem) (path : String) (width : Int)
        (content : List uint8_t), fs path = some content →
        host.vectorAlloc (frameSize height stride) = true →
        host.createTexture width height = true →
        ∃ planes, Call.update width height planes
          ∈ (loadNV12toTexture host fs path width height stride).2)
    ∧ (∀ (host : Host) (fs : FileSystem) (path : String) (width w h : Int)
        (planes : NVPlanes),
        Call.update w h planes ∈ (loadNV12toTexture host fs path width height stride).2 →
        planes.uvStart = stride * height
        ∧ ((planes.buffer.length : Nat) : Int) = stride * height + stride * (height / 2)
        ∧ 0 ≤ planes.uvStart ∧ planes.uvStart ≤ ((planes.buffer.length : Nat) : Int)
        ∧ ∃ chroma, planeBytes planes.buffer planes.uvStart = some chroma
            ∧ ((chroma.length : Nat) : Int) = stride * (height / 2))
    ∧ (∀ (host : Host) (fs : FileSystem) (path : String) (width : Int) (tex : SDL_Texture),
        (loadNV12toTexture host fs path width height stride).1 = some tex →
        tex.planes.uvStart = stride * height
        ∧ ((tex.planes.buffer.length : Nat) : Int) = stride * height + stride * (height / 2)
        ∧ 0 ≤ tex.planes.uvStart
        ∧ tex.planes.uvStart ≤ ((tex.planes.buffer.length : Nat) : Int)
        ∧ ∃ chroma, planeBytes tex.planes.buffer tex.planes.uvStart = some chroma
            ∧ ((chroma.length : Nat) : Int) = stride * (height / 2)) := by
  have hprod : 0 ≤ stride * height ∧ stride * height ≤ 100000000 := by
    constructor <;> nlinarith
  have hm : intMul stride height = stride * height := by
    unfold intMul
    exact wrapInt32_of_isInt32 (by unfold isInt32; omega)
  have ht : Int.tdiv height 2 = height / 2 := Int.tdiv_eq_ediv (by omega) (by norm_num)
  have hd : 0 ≤ height / 2 ∧ height / 2 ≤ 5000 := by omega
  have hsd : 0 ≤ stride * (height / 2) := by nlinarith
  have hf : ((frameSize height stride : Nat) : Int) = stride * height + stride * (height / 2) := by
    rw [← ht]
    exact frameSize_eq (by unfold isInt32; omega) (by unfold isInt32; omega) (by rw [ht]; omega)
  have hbuf : ∀ content : List uint8_t,
      ∃ chroma, planeBytes (readBuffer content (frameSize height stride))
          (intMul stride height) = some chroma
        ∧ ((chroma.length : Nat) : Int) = stride * (height / 2) := by
    intro content
    have hlen := readBuffer_length content (frameSize height stride)
    refine ⟨(readBuffer content (frameSize height stride)).drop (intMul stride height).toNat, ?_, ?_⟩
    · unfold planeBytes
      rw [if_pos]
      rw [hlen, hf, hm]
      omega
    · rw [List.length_drop, hlen, hm]
      omega
  have hplanes : ∀ content : List uint8_t,
      (loadedPlanes content height stride).uvStart = stride * height
      ∧ (((loadedPlanes content height stride).buffer.length : Nat) : Int)
          = stride * height + stride * (height / 2)
      ∧ 0 ≤ (loadedPlanes content height stride).uvStart
      ∧ (loadedPlanes content height stride).uvStart
          ≤ (((loadedPlanes content height stride).buffer.length : Nat) : Int)
      ∧ ∃ chroma, planeBytes (loadedPlanes content height stride).buffer
            (loadedPlanes content height stride).uvStart = some chroma
          ∧ ((chroma.length : Nat) : Int) = stride * (height / 2) := by
    intro content
    have hlen : (loadedPlanes content height stride).buffer.length = frameSize height stride :=
      readBuffer_length content (frameSize height stride)
    have huv : (loadedPlanes content height stride).uvStart = stride * height := hm
    refine ⟨huv, by rw [hlen, hf], by rw [huv]; exact hprod.1, by rw [huv, hlen, hf]; omega,
      hbuf content⟩
  refine ⟨hm, ?_, hf, ?_, ?_, ?_, hbuf, ?_, ?_, ?_⟩
  · rw [hm]
    push_cast [toSizeT_cast]
    rw [Int.emod_eq_of_lt (by omega) (by omega), Int.emod_eq_of_lt (by omega) (by omega)]
  · rw [hm, hf]; omega
  · rw [hm, hf]; omega
  · intro h1
    rw [hm, hf, h1]; simp
  · intro host fs path width content hfile ha hc
    exact ⟨_, load_update_made host width height stride hfile ha hc⟩
  · intro host fs path width w h planes hmem
    obtain ⟨content, -, hp, -, -⟩ := load_update_mem hmem
    rw [hp]
    exact hplanes content
  · intro host fs path width tex htex
    obtain ⟨content, -, hp⟩ := load_texture htex
    rw [hp]
    exact hplanes content

/-- Witness of C10 at height 2 and stride 2, on a file of six bytes: the
decoder makes the update, and the update it makes has the chroma pointer at
offset 4 of a buffer of 6 bytes. -/
theorem chroma_offset_in_buffer_witness :
    intMul 2 2 = 2 * 2
    ∧ (∃ planes, Call.update 2 2 planes
        ∈ (loadNV12toTexture hostOk fsExample "a.YUV420NV12" 2 2 2).2)
    ∧ (∀ (w h : Int) (planes : NVPlanes),
        Call.update w h planes ∈ (loadNV12toTexture hostOk fsExample "a.YUV420NV12" 2 2 2).2 →
        planes.uvStart = 2 * 2
        ∧ ((planes.buffer.length : Nat) : Int) = 2 * 2 + 2 * (2 / 2)
        ∧ 0 ≤ planes.uvStart ∧ planes.uvStart ≤ ((planes.buffer.length : Nat) : Int)
        ∧ ∃ chroma, planeBytes planes.buffer planes.uvStart = some chroma
            ∧ ((chroma.length : Nat) : Int) = 2 * (2 / 2)) := by
  have h := chroma_offset_in_buffer 2 2 (by decide) (by decide) (by decide) (by decide)
  exact ⟨h.1,
    h.2.2.2.2.2.2.2.1 hostOk fsExample "a.YUV420NV12" 2 [1, 2, 3, 4, 5, 6] rfl (by decide) rfl,
    fun w h' planes hm => h.2.2.2.2.2.2.2.2.1 hostOk fsExample "a.YUV420NV12" 2 w h' planes hm⟩

/-- C2 as stated fails: height and stride 2147483647 (width 1) and a file that
opens on no byte at all. The file is shorter than the required
6917529020124889090 bytes, which is the frame size the decoder computes, and no
process can hold a buffer of that size: the allocation of line 62 throws, nothing
catches it, and the decoder ends the program instead of handing a zero-padded
buffer to the texture update. -/
theorem short_file_huge_frame_throws :
    (isInt32 1 ∧ isInt32 2147483647)
    ∧ ((([] : List uint8_t).length : Nat) : Int)
        < 2147483647 * 2147483647 + 2147483647 * Int.tdiv 2147483647 2
    ∧ frameSize 2147483647 2147483647 = 6917529020124889090
    ∧ hostOk.vectorAlloc (frameSize 2147483647 2147483647) = false
    ∧ loadNV12toTexture hostOk (fun _ => some []) "empty.YUV420NV12" 1 2147483647 2147483647
        = ⟨none, [Call.load "empty.YUV420NV12" 1 2147483647 2147483647, Call.terminate], true⟩ := by
  have hfs : frameSize 2147483647 2147483647 = 6917529020124889090 := by decide
  have ha : hostOk.vectorAlloc (frameSize 2147483647 2147483647) = false := by
    rw [hfs]; decide
  exact ⟨by decide, by decide, hfs, ha, load_thrown hostOk 1 2147483647 2147483647 rfl ha⟩

/-- C2, amended. Short files are padded with zeros when the buffer can be
allocated: for int geometry and a file that opens on content bs shorter than
required = stride*height + stride*(height/2) (height/2 truncating), the frame size
computed by the decoder is required; when the allocation of that many bytes
succeeds the decoder does not throw and fails only when SDL does (never because
of the length), and the buffer it passes to the texture update has length
required and is bs followed by required - length bs zero bytes. For a file of any
length the buffer is the first frameSize bytes of the file followed by zeros:
byte i of the buffer is byte i of the file when the file has one, and zero
otherwise. -/
theorem short_file_zero_padded (host : Host) (fs : FileSystem) (path : String)
    (width height stride : Int) (bs : List uint8_t)
    (hh : isInt32 height) (hs : isInt32 stride) (hf : fs path = some bs)
    (hshort : (bs.length : Int) < stride * height + stride * Int.tdiv height 2)
    (ha : host.vectorAlloc (frameSize height stride) = true) :
    ((frameSize height stride : Nat) : Int) = stride * height + stride * Int.tdiv height 2
    ∧ (loadNV12toTexture host fs path width height stride).thrown = false
    ∧ (loadNV12toTexture host fs path width height stride).1
        = (if host.createTexture width height
              ∧ host.updateNVTexture width height (loadedPlanes bs height stride)
           then some ⟨width, height, loadedPlanes bs height stride⟩ else none)
    ∧ (host.createTexture width height = true →
        Call.update width height (loadedPlanes bs height stride)
          ∈ (loadNV12toTexture host fs path width height stride).2)
    ∧ (∀ (w h : Int) (planes : NVPlanes),
        Call.update w h planes ∈ (loadNV12toTexture host fs path width height stride).2 →
        planes = loadedPlanes bs height stride)
    ∧ (loadedPlanes bs height stride).buffer
        = bs ++ List.replicate (frameSize height stride - bs.length) 0
    ∧ (loadedPlanes bs height stride).buffer.length = frameSize height stride
    ∧ ∀ (content : List uint8_t) (i : Nat),
        (loadedPlanes content height stride).buffer
          = content.take (frameSize height stride)
            ++ List.replicate (frameSize height stride - content.length) 0
        ∧ (loadedPlanes content height stride).buffer[i]?
          = if i < frameSize height stride
            then (if i < content.length then content[i]? else some 0) else none := by
  have hfs := frameSize_eq hh hs (by omega)
  have hl := load_some host width height stride hf ha
  refine ⟨hfs, hl.2, hl.1, fun hc => load_update_made host width height stride hf ha hc,
    ?_, ?_, ?_, ?_⟩
  · intro w h planes hm
    obtain ⟨content, hc, hp, -, -⟩ := load_update_mem hm
    rw [hf] at hc
    cases hc
    exact hp
  · exact readBuffer_short (by omega)
  · exact readBuffer_length _ _
  · intro content i
    refine ⟨?_, readBuffer_getElem? _ _ _⟩
    show readBuffer content (frameSize height stride) = _
    unfold readBuffer
    congr 2
    simp only [List.length_take]
    omega

/-- Witness of C2: a file of three bytes read at height 3 and stride 2, which
requires eight bytes. -/
theorem short_file_zero_padded_witness :
    (loadNV12toTexture hostOk (fun _ => some [1, 2, 3]) "f" 2 3 2).1
      = (if hostOk.createTexture 2 3
            ∧ hostOk.updateNVTexture 2 3 (loadedPlanes [1, 2, 3] 3 2)
         then some ⟨2, 3, loadedPlanes [1, 2, 3] 3 2⟩ else none)
    ∧ (loadNV12toTexture hostOk (fun _ => some [1, 2, 3]) "f" 2 3 2).thrown = false
    ∧ (loadedPlanes [1, 2, 3] 3 2).buffer = [1, 2, 3] ++ List.replicate (frameSize 3 2 - 3) 0 := by
  have h := short_file_zero_padded hostOk (fun _ => some [1, 2, 3]) "f" 2 3 2 [1, 2, 3]
    (by decide) (by decide) rfl (by decide) (by decide)
  exact ⟨h.2.2.1, h.2.1, h.2.2.2.2.2.1⟩

/-- C3. A file that cannot be opened is reported, not raised: for every
geometry and every renderer the decoder returns the failed result (none), its
only recorded action is its own call (no texture is created, updated or
destroyed), and the outcome does not depend on the renderer. In general the
texture returned depends on the path only through the state of the file. -/
theorem open_failure_reported (host : Host) (fs : FileSystem) (path : String)
    (width height stride : Int) (hf : fs path = none) :
    (loadNV12toTexture host fs path width height stride).1 = none
    ∧ (loadNV12toTexture host fs path width height stride).2
        = [Call.load path width height stride]
    ∧ (∀ host2 : Host, loadNV12toTexture host2 fs path width height stride
        = loadNV12toTexture host fs path width height stride)
    ∧ (∀ (fs2 : FileSystem) (path2 : String), fs2 path2 = fs path →
        (loadNV12toTexture host fs2 path2 width height stride).1
          = (loadNV12toTexture host fs path width height stride).1) := by
  refine ⟨?_, ?_, ?_, ?_⟩
  · rw [load_none host width height stride hf]
  · rw [load_none host width height stride hf]
  · intro host2
    rw [load_none host width height stride hf, load_none host2 width height stride hf]
  · intro fs2 path2 h2
    rw [load_none host width height stride hf, load_none host width height stride (h2.trans hf)]

/-- Witness of C3: a file system in which no path opens. -/
theorem open_failure_reported_witness :
    (loadNV12toTexture hostOk (fun _ => none) "missing" 640 360 640).1 = none
    ∧ (loadNV12toTexture hostOk (fun _ => none) "missing" 640 360 640).2
        = [Call.load "missing" 640 360 640] :=
  have h := open_failure_reported hostOk (fun _ => none) "missing" 640 360 640 rfl
  ⟨h.1, h.2.1⟩

/-- Round trip when the int product does not overflow: for width, height and
stride at least 1 with stride * height below 2^31 and a file of exactly
stride*height + stride*(height/2) bytes, the luma pointer sees the whole file,
its first stride*height bytes being the luma plane, the chroma pointer sees the
bytes of the file from offset stride*height on, and both pitches are the stride. -/
theorem roundtrip_of_no_overflow (content : List uint8_t) (height stride : Int)
    (hh : 1 ≤ height) (hh2 : height ≤ 2147483647) (hs : 1 ≤ stride)
    (hprod : stride * height ≤ 2147483647)
    (hlen : (content.length : Int) = stride * height + stride * (height / 2)) :
    (loadedPlanes content height stride).buffer = content
    ∧ planeBytes (loadedPlanes content height stride).buffer
        (loadedPlanes content height stride).yStart = some content
    ∧ planeBytes (loadedPlanes content height stride).buffer
        (loadedPlanes content height stride).uvStart
        = some (content.drop (stride * height).toNat)
    ∧ (loadedPlanes content height stride).Ypitch = stride
    ∧ (loadedPlanes content height stride).UVpitch = stride := by
  have ht : Int.tdiv height 2 = height / 2 := Int.tdiv_eq_ediv (by omega) (by norm_num)
  have hp0 : 0 ≤ stride * height := by nlinarith
  have hs2 : stride ≤ 2147483647 := by nlinarith
  have hfs : ((frameSize height stride : Nat) : Int) = stride * height + stride * (height / 2) := by
    rw [← ht]
    exact frameSize_eq (by unfold isInt32; omega) (by unfold isInt32; omega)
      (by rw [ht, ← hlen]; positivity)
  have hbuf : readBuffer content (frameSize height stride) = content :=
    readBuffer_exact (by omega)
  have hm : intMul stride height = stride * height :=
    wrapInt32_of_isInt32 (by unfold isInt32; omega)
  have hd : 0 ≤ stride * (height / 2) := by
    have : 0 ≤ height / 2 := by omega
    nlinarith
  refine ⟨hbuf, ?_, ?_, rfl, rfl⟩
  · show planeBytes (readBuffer content (frameSize height stride)) 0 = _
    rw [hbuf]
    simp [planeBytes]
  · show planeBytes (readBuffer content (frameSize height stride)) (intMul stride height) = _
    rw [hbuf, hm]
    unfold planeBytes
    rw [if_pos ⟨hp0, by omega⟩]


/-- C1, at the input where the code departs from it: width 2, height 16384,
stride 131072 and a file of exactly stride*height + stride*(height/2)
= 3221225472 bytes. The decoder succeeds and the buffer is the file, but the int
product stride * height overflows: the chroma offset passed to the texture update
is -2147483648 and not 2147483648, so the chroma pointer lies outside the
buffer and the chroma plane is not the bytes of the file from offset
stride*height on. -/
theorem roundtrip_chroma_offset_overflows :
    (1 ≤ (2 : Int) ∧ 1 ≤ (16384 : Int) ∧ 1 ≤ (131072 : Int)
      ∧ isInt32 2 ∧ isInt32 16384 ∧ isInt32 131072)
    ∧ (((List.replicate 3221225472 (0 : uint8_t)).length : Nat) : Int)
        = 131072 * 16384 + 131072 * (16384 / 2)
    ∧ (loadNV12toTexture hostOk (fun _ => some (List.replicate 3221225472 0))
          "big.YUV420NV12" 2 16384 131072).1
        = some ⟨2, 16384, loadedPlanes (List.replicate 3221225472 0) 16384 131072⟩
    ∧ (loadedPlanes (List.replicate 3221225472 0) 16384 131072).buffer
        = List.replicate 3221225472 0
    ∧ (loadedPlanes (List.replicate 3221225472 0) 16384 131072).uvStart = -2147483648
    ∧ (131072 : Int) * 16384 = 2147483648
    ∧ planeBytes (loadedPlanes (List.replicate 3221225472 0) 16384 131072).buffer
        (loadedPlanes (List.replicate 3221225472 0) 16384 131072).uvStart = none := by
  have hlen : (List.replicate 3221225472 (0 : uint8_t)).length = 3221225472 :=
    List.length_replicate _ _
  have hfs : frameSize 16384 131072 = 3221225472 := by decide
  have hmul : intMul 131072 16384 = -2147483648 := by decide
  have hbuf : readBuffer (List.replicate 3221225472 (0 : uint8_t)) (frameSize 16384 131072)
      = List.replicate 3221225472 0 := readBuffer_exact (hlen.trans hfs.symm)
  refine ⟨by decide, ?_, ?_, hbuf, hmul, by decide, ?_⟩
  · rw [hlen]; decide
  · rw [(load_some hostOk 2 16384 131072 rfl (by rw [hfs]; decide)).1]
    exact if_pos ⟨rfl, rfl⟩
  · show planeBytes (readBuffer _ _) (intMul 131072 16384) = none
    rw [hmul]
    unfold planeBytes
    exact if_neg (fun h => absurd h.1 (by decide))


/-- C4. A rebuild tolerates the failure of one file: when the thumbnail vector
has one slot per file, file j cannot be opened and the decoder succeeds on every
other file, then after reloadTextures (for every selected index and every
geometry) there are still N slots, slot j is empty, every other slot is populated,
N - 1 slots are populated and one is empty. -/
theorem rebuild_tolerates_failure (host : Host) (fs : FileSystem) (files : List String)
    (width height stride : Int) (mainTexture : Option SDL_Texture)
    (thumbTextures : List (Option SDL_Texture)) (idx : Int) (j : Nat)
    (hlen : thumbTextures.length = files.length) (hj : j < files.length)
    (hfail : fs (fileAt files j) = none)
    (hok : ∀ i, i < files.length → i ≠ j →
      (loadNV12toTexture host fs (fileAt files i) width height stride).1.isSome = true) :
    (reloadTextures host fs files width height stride mainTexture thumbTextures idx).2.1.length
      = files.length
    ∧ (reloadTextures host fs files width height stride mainTexture thumbTextures idx).2.1[j]?
      = some none
    ∧ (∀ i, i < files.length → i ≠ j → ∃ t,
        (reloadTextures host fs files width height stride mainTexture thumbTextures idx).2.1[i]?
          = some (some t))
    ∧ (reloadTextures host fs files width height stride mainTexture
        thumbTextures idx).2.1.countP Option.isSome = files.length - 1
    ∧ (reloadTextures host fs files width height stride mainTexture
        thumbTextures idx).2.1.countP Option.isNone = 1 := by
  rw [reloadTextures_thumbs host fs files width height stride mainTexture thumbTextures idx hlen]
  have hL : ((List.range files.length).map (fun i =>
      (loadNV12toTexture host fs (fileAt files i) width height stride).1)).length
      = files.length := by simp
  have hJ : ((List.range files.length).map (fun i =>
      (loadNV12toTexture host fs (fileAt files i) width height stride).1))[j]? = some none := by
    rw [List.getElem?_map, List.getElem?_range hj, Option.map_some']
    rw [load_none host width height stride hfail]
  have hI : ∀ i, i < files.length → i ≠ j → ∃ t, ((List.range files.length).map (fun i =>
      (loadNV12toTexture host fs (fileAt files i) width height stride).1))[i]?
        = some (some t) := by
    intro i hi hij
    rw [List.getElem?_map, List.getElem?_range hi, Option.map_some']
    obtain ⟨t, ht⟩ := Option.isSome_iff_exists.mp (hok i hi hij)
    exact ⟨t, by rw [ht]⟩
  have hC := countP_isSome_one_none _ j (by rw [hL]; exact hj) hJ
    (fun i hi hij => hI i (by rw [hL] at hi; exact hi) hij)
  rw [hL] at hC
  refine ⟨hL, hJ, hI, hC, ?_⟩
  rw [countP_isNone_eq, hC, hL]
  omega

/-- Witness of C4: two files, the second of which cannot be opened. -/
theorem rebuild_tolerates_failure_witness :
    (reloadTextures hostOk fsExample ["a.YUV420NV12", "b.YUV420NV12"] 2 2 2 none
        [none, none] 0).2.1.countP Option.isSome = 1
    ∧ (reloadTextures hostOk fsExample ["a.YUV420NV12", "b.YUV420NV12"] 2 2 2 none
        [none, none] 0).2.1[1]? = some none := by
  have h := rebuild_tolerates_failure hostOk fsExample ["a.YUV420NV12", "b.YUV420NV12"] 2 2 2
    none [none, none] 0 1 rfl (by decide) (by decide) (by
      intro i hi hij
      have h0 : i = 0 := by
        simp only [List.length_cons, List.length_nil] at hi
        omega
      subst h0
      decide)
  exact ⟨h.2.2.2.1, h.2.1⟩

/-- C5. Selection leaves the thumbnails untouched: each of the five selection
steps of the driver (right key, left key, button Prev, button Next, double click
on thumbnail i) changes only the selected index and the main texture, which
becomes what the decoder returns for files[newIndex] at the current geometry;
the thumbnail vector after the step is the one before it, for every state. The
same holds for a whole event loop and for the whole thumbnail loop. -/
theorem selection_keeps_thumbnails (host : Host) (fs : FileSystem) (files : List String)
    (d : Driver) (i : Nat) (events : List SDL_Event) (inp : FrameInput) :
    SelectsOnly host fs files (nextIndex d.idx files.length) d (keyRight host fs files d)
    ∧ SelectsOnly host fs files (prevIndex d.idx files.length) d (keyLeft host fs files d)
    ∧ SelectsOnly host fs files (prevIndex d.idx files.length) d (buttonPrev host fs files d)
    ∧ SelectsOnly host fs files (nextIndex d.idx files.length) d (buttonNext host fs files d)
    ∧ SelectsOnly host fs files (wrapInt32 (i : Int)) d (thumbDoubleClick host fs files i d)
    ∧ (i ≤ 2147483647 → wrapInt32 (i : Int) = (i : Int))
    ∧ (pollEvents host fs files events d).thumbTextures = d.thumbTextures
    ∧ (thumbnailBar host fs files inp d).thumbTextures = d.thumbTextures := by
  refine ⟨loadMain_selectsOnly _ _ _ _ _, loadMain_selectsOnly _ _ _ _ _,
    loadMain_selectsOnly _ _ _ _ _, loadMain_selectsOnly _ _ _ _ _,
    loadMain_selectsOnly _ _ _ _ _, ?_, ?_, ?_⟩
  · intro hi
    exact wrapInt32_of_isInt32 (by unfold isInt32; omega)
  · unfold pollEvents
    apply foldl_invariant (fun b : Driver => b.thumbTextures = d.thumbTextures) _ _ _ _ rfl
    intro b e _ hb
    cases e with
    | quit => exact hb
    | other => exact hb
    | keydown sym =>
      cases sym with
      | escape => exact hb
      | other => exact hb
      | right => exact (loadMain_selectsOnly host fs files _ b).2.2.1.trans hb
      | left => exact (loadMain_selectsOnly host fs files _ b).2.2.1.trans hb
  · unfold thumbnailBar
    apply foldl_invariant (fun b : Driver => b.thumbTextures = d.thumbTextures) _ _ _ _ rfl
    intro b k _ hb
    show (match b.thumbTextures.getD k none with
      | none => b
      | some _ => if inp.doubleClicked k then thumbDoubleClick host fs files k b else b).thumbTextures
      = d.thumbTextures
    cases b.thumbTextures.getD k none with
    | none => exact hb
    | some t =>
      by_cases hc : inp.doubleClicked k = true
      · simp only [hc, if_true]
        exact (loadMain_selectsOnly host fs files _ b).2.2.1.trans hb
      · simp only [hc]
        exact hb

/-- C7. Cache consistency is an invariant of the driver, with decode a function
of the file and the geometry: the state after the initial reloadTextures is
consistent (also as main produces it); every iteration of the main loop, and every
run of iterations, keeps a consistent state consistent, whatever the events, the
edits of the geometry fields, the buttons and the double clicks; an iteration
that changes the geometry ends in a consistent state whatever the slots held
before it; a consistent state has one slot per file, its main texture is the
decode of files[idx] and slot i is the decode of files[i], all at the current
geometry. For 1 to 2^31 - 1 files the selected index is an index of the file
list at the start and after every iteration. -/
theorem cache_consistency (host : Host) (fs : FileSystem) (files : List String) :
    (∀ width height stride : Int,
        Consistent host fs files (initialDriver host fs files width height stride))
    ∧ (∀ (env : Environment) (argv : List String) (d : Driver),
        main host fs env argv = Startup.running files d → Consistent host fs files d)
    ∧ (∀ (inp : FrameInput) (d : Driver), Consistent host fs files d →
        Consistent host fs files (frame host fs files inp d))
    ∧ (∀ (inps : List FrameInput) (d : Driver), Consistent host fs files d →
        Consistent host fs files (runFrames host fs files inps d))
    ∧ (∀ (inp : FrameInput) (d : Driver), d.thumbTextures.length = files.length →
        ((frame host fs files inp d).WIDTH, (frame host fs files inp d).HEIGHT,
          (frame host fs files inp d).STRIDE) ≠ (d.WIDTH, d.HEIGHT, d.STRIDE) →
        Consistent host fs files (frame host fs files inp d))
    ∧ (∀ d : Driver, Consistent host fs files d →
        d.thumbTextures.length = files.length
        ∧ d.texture = (loadNV12toTexture host fs (fileAt files (toSizeT d.idx))
            d.WIDTH d.HEIGHT d.STRIDE).1
        ∧ ∀ i, i < files.length → d.thumbTextures[i]?
            = some (loadNV12toTexture host fs (fileAt files i) d.WIDTH d.HEIGHT d.STRIDE).1)
    ∧ (1 ≤ files.length → files.length ≤ 2147483647 →
        (∀ width height stride : Int,
          ValidIndex files (initialDriver host fs files width height stride))
        ∧ (∀ (inp : FrameInput) (d : Driver), ValidIndex files d →
          ValidIndex files (frame host fs files inp d))
        ∧ (∀ (inps : List FrameInput) (d : Driver), ValidIndex files d →
          ValidIndex files (runFrames host fs files inps d))) := by
  refine ⟨fun w h s => initialDriver_consistent host fs files w h s, ?_,
    fun inp d h => frame_consistent host fs files inp h,
    fun inps d h => runFrames_consistent host fs files inps h,
    fun inp d hlen hG => frame_geometry_change host fs files inp hlen hG, ?_, ?_⟩
  · intro env argv d hm
    obtain ⟨w, h, s, rfl⟩ := main_running hm
    exact initialDriver_consistent host fs files w h s
  · intro d h
    refine ⟨h.length, h.2, ?_⟩
    intro i hi
    rw [h.1, List.getElem?_map, List.getElem?_range hi]
    rfl
  · intro hN1 hN
    exact ⟨fun w h s => initialDriver_validIndex host fs files hN1 w h s,
      fun inp d h => frame_validIndex host fs files hN1 hN inp h,
      fun inps d h => runFrames_validIndex host fs files hN1 hN inps h⟩

/-- C9, at an input where the code departs from it: the command line
SimpleYUVPlayer.exe 20000 0 -3 frames, for a folder with one frame file. The
geometry of the command line reaches the initial reloadTextures as it was typed:
both calls of the decoder (main texture and thumbnail) receive width 20000,
height 0 and stride -3, none of which lies in 1..10000. -/
theorem command_line_geometry_not_clamped :
    main hostOk fsExample ⟨"", fun _ => ["a.YUV420NV12"]⟩
        ["SimpleYUVPlayer.exe", "20000", "0", "-3", "frames"]
      = Startup.running ["a.YUV420NV12"]
          (initialDriver hostOk fsExample ["a.YUV420NV12"] 20000 0 (-3))
    ∧ loadGeometries (initialDriver hostOk fsExample ["a.YUV420NV12"] 20000 0 (-3)).log
      = [(20000, 0, -3), (20000, 0, -3)]
    ∧ (initialDriver hostOk fsExample ["a.YUV420NV12"] 20000 0 (-3)).log.head?
      = some (Call.load "a.YUV420NV12" 20000 0 (-3)) := by
  refine ⟨?_, ?_, ?_⟩
  · decide
  · decide
  · decide

end SimpleYUVPlayer
